import Mathlib

/-!
A shallow embedding of the Stratos jetstream info aggregator
(src/jetstream/info.go) and of the frontend pagination flattener
(src/frontend/app/store/helpers/paginated-request-helpers.ts),
together with theorems settling the stated properties of these
components.

Go maps are modelled as association lists (`List (String × α)`) with
lookup/replace helpers; mutation through pointers is modelled by
returning the transformed structure; fallible Go calls are modelled
with `Except String`.
-/

instance {ε α : Type} [DecidableEq ε] [DecidableEq α] : DecidableEq (Except ε α) :=
  fun a b =>
    match a, b with
    | .ok x, .ok y =>
        if h : x = y then .isTrue (by rw [h])
        else .isFalse (fun hc => by cases hc; exact h rfl)
    | .error x, .error y =>
        if h : x = y then .isTrue (by rw [h])
        else .isFalse (fun hc => by cases hc; exact h rfl)
    | .ok _, .error _ => .isFalse (fun hc => by cases hc)
    | .error _, .ok _ => .isFalse (fun hc => by cases hc)

/-- A connected user (interfaces.ConnectedUser): stable identifier plus admin flag. -/
structure ConnectedUser where
  guid : String
  admin : Bool
deriving DecidableEq

/-- The registered endpoint record (interfaces.CNSIRecord), restricted to the
fields the aggregator reads: identifier, type tag, display name and the raw
metadata string. -/
structure CNSIRecord where
  guid : String
  cnsiType : String
  name : String
  metadata : String
deriving DecidableEq

/-- A stored token record (interfaces.TokenRecord), restricted to the fields
getInfo reads: opaque metadata and the system-shared flag. -/
structure TokenRecord where
  metadata : String
  systemShared : Bool
deriving DecidableEq

/-- A row of the relations table (interfaces.RelationsRecord): a directed edge
from provider to target with a type tag and opaque metadata. -/
structure RelationsRecord where
  provider : String
  target : String
  relationType : String
  metadata : String
deriving DecidableEq

/-- One entry of an endpoint's provides/receives list
(interfaces.EndpointRelation): peer identifier, relation type, metadata. -/
structure EndpointRelation where
  guid : String
  relationType : String
  metadata : String
deriving DecidableEq

/-- The pair of relation lists attached to an endpoint
(interfaces.EndpointRelations). -/
structure EndpointRelations where
  provides : List EndpointRelation
  receives : List EndpointRelation
deriving DecidableEq

/-- Result of marshalEndpointMetadata: either the raw string passed through, or
a decoded JSON object (`none` standing for the nil map left behind when
json.Unmarshal fails, since its error is discarded). -/
inductive MetaValue where
  | str : String → MetaValue
  | obj : Option (List (String × String)) → MetaValue
deriving DecidableEq

/-- The aggregated per-endpoint view (interfaces.EndpointDetail): the CNSI
record, the marshalled endpoint metadata, the extension metadata map, the
credential projection for the requesting user, and the attached relations
(`none` models the nil pointer before updateEndpointsWithRelations runs). -/
structure EndpointDetail where
  cnsi : CNSIRecord
  endpointMetadata : MetaValue
  metadata : List (String × String)
  systemSharedToken : Bool
  user : Option ConnectedUser
  tokenMetadata : String
  relations : Option EndpointRelations
deriving DecidableEq

/-- The two-level endpoints map of the snapshot:
type tag → endpoint guid → detail (Go map[string]map[string]*EndpointDetail). -/
abbrev EndpointsMap : Type := List (String × List (String × EndpointDetail))

/-- The aggregated snapshot (interfaces.Info), restricted to the fields
getInfo writes: versions, user, endpoints, opaque config passthrough,
diagnostics (admin only) and the plugins status blob. -/
structure Info where
  versions : String
  user : ConnectedUser
  endpoints : EndpointsMap
  cloudFoundry : String
  pluginConfig : String
  diagnostics : Option String
  plugins : String
deriving DecidableEq

/-- Association-list lookup, modelling Go map read `m[k]` (absent key = none). -/
def assocGet {α : Type} (m : List (String × α)) (k : String) : Option α :=
  match m with
  | [] => none
  | (k0, v) :: rest => if k0 == k then some v else assocGet rest k

/-- Association-list write, modelling Go map assignment `m[k] = v`. -/
def assocSet {α : Type} (m : List (String × α)) (k : String) (v : α) :
    List (String × α) :=
  match m with
  | [] => [(k, v)]
  | (k0, v0) :: rest =>
      if k0 == k then (k, v) :: rest else (k0, v0) :: assocSet rest k v

/-- Membership of a key in a Go map. -/
def containsKey {α : Type} (m : List (String × α)) (k : String) : Bool :=
  (assocGet m k).isSome

/-- Two-level lookup in the endpoints map: bucket by type tag, then guid. -/
def assocGet2 (m : EndpointsMap) (t g : String) : Option EndpointDetail :=
  (assocGet m t).bind (fun bucket => assocGet bucket g)

/-- The provides list of an endpoint detail (empty when Relations is nil). -/
def providesOf (e : EndpointDetail) : List EndpointRelation :=
  (e.relations.getD { provides := [], receives := [] }).provides

/-- The receives list of an endpoint detail (empty when Relations is nil). -/
def receivesOf (e : EndpointDetail) : List EndpointRelation :=
  (e.relations.getD { provides := [], receives := [] }).receives

/-- The provides entry a relation produces (target guid, type, metadata). -/
def provEntry (r : RelationsRecord) : EndpointRelation :=
  { guid := r.target, relationType := r.relationType, metadata := r.metadata }

/-- The receives entry a relation produces (provider guid, type, metadata). -/
def recvEntry (r : RelationsRecord) : EndpointRelation :=
  { guid := r.provider, relationType := r.relationType, metadata := r.metadata }

/-- The per-relation body of the inner loop of updateEndpointsWithRelations:
provider match appends to provides, otherwise a target match appends to
receives (the else-if of info.go lines 50-62). -/
def relStep (guid : String) (acc : EndpointRelations) (relation : RelationsRecord) :
    EndpointRelations :=
  if relation.provider == guid then
    { acc with provides := acc.provides ++
        [{ guid := relation.target, relationType := relation.relationType,
           metadata := relation.metadata }] }
  else if relation.target == guid then
    { acc with receives := acc.receives ++
        [{ guid := relation.provider, relationType := relation.relationType,
           metadata := relation.metadata }] }
  else acc

/-- The per-endpoint body of updateEndpointsWithRelations: initialize the
Relations pair if nil, then fold every relation through `relStep`. -/
def attachRelations (relations : List RelationsRecord) (endpoint : EndpointDetail) :
    EndpointDetail :=
  let init :=
    match endpoint.relations with
    | none => ({ provides := [], receives := [] } : EndpointRelations)
    | some r => r
  { endpoint with relations := some (relations.foldl (relStep endpoint.cnsi.guid) init) }

/-- Apply a detail transformation to every endpoint of every type bucket
(the two nested range loops of updateEndpointsWithRelations). -/
def mapEndpoints (f : EndpointDetail → EndpointDetail) (endpoints : EndpointsMap) :
    EndpointsMap :=
  endpoints.map (fun bucket => (bucket.1, bucket.2.map (fun q => (q.1, f q.2))))

/-- updateEndpointsWithRelations (info.go lines 35-68): fetch the relations
(first argument models the ListRelations call result); on failure return the
wrapped error without touching the endpoints; otherwise attach the
provides/receives lists to every endpoint. -/
def updateEndpointsWithRelations
    (listRelationsResult : Except String (List RelationsRecord))
    (endpoints : EndpointsMap) : Except String EndpointsMap :=
  match listRelationsResult with
  | .error err => .error ("Failed to fetch relations: " ++ err)
  | .ok relations => .ok (mapEndpoints (attachRelations relations) endpoints)

/-- strings.Index(s, "{"): byte index of the first brace, -1 when absent
(for this single-character needle the char index and byte index of the first
occurrence coincide only when no earlier char is multi-byte; getInfo only
compares the result with 0, and the first char is multi-byte exactly when it
is not a brace, so the comparison with 0 is unaffected). -/
def braceIndex (s : String) : Int :=
  match s.toList.findIdx? (fun c => c = '{') with
  | some i => (i : Int)
  | none => -1

/-- marshalEndpointMetadata (info.go lines 155-163): when the metadata string
has byte length greater than 2 and starts with a brace, JSON-decode it into a
key-value map (the decode error is ignored, leaving a nil map on failure,
modelled by the `Option` inside `MetaValue.obj`); otherwise pass the string
through unchanged. The decoder stands for json.Unmarshal and is a parameter. -/
def marshalEndpointMetadata (decode : String → Option (List (String × String)))
    (metadata : String) : MetaValue :=
  if metadata.utf8ByteSize > 2 ∧ braceIndex metadata = 0 then
    MetaValue.obj (decode metadata)
  else
    MetaValue.str metadata

/-- An endpoint plugin (the value GetEndpointPlugin returns): its type tag
(GetType) and its post-processing step.

Modelled from the spec: the UpdateMetadata signature lives in the interfaces
package outside src/ and concrete extensions are external; per the spec an
extension post-processes the snapshot and "an extension failing (raising an
error) MUST NOT abort the whole request — its failure is logged and the
snapshot proceeds with whatever it had before that extension ran", so the
step is modelled as a fallible snapshot transformer whose error is swallowed
by the caller. -/
structure EndpointPluginI where
  typeTag : String
  updateMetadata : Info → String → Except String Info

/-- A registered plugin: `getEndpointPlugin` is `none` when the plugin does
not implement the endpoint-plugin interface (the GetEndpointPlugin error
branch, which getInfo skips). -/
structure PluginI where
  getEndpointPlugin : Option EndpointPluginI

/-- The request-scoped environment of getInfo: each field models one
collaborator call of the portalProxy (p.getVersionsData, the session lookup,
p.GetUAAUser, config passthrough, p.Diagnostics, p.Plugins, p.buildCNSIList
whose error getInfo discards, p.GetCNSIUserAndToken, p.ListRelations,
p.PluginsStatus) plus the json.Unmarshal decoder. -/
structure PortalProxy where
  getVersionsData : Except String String
  sessionUserId : Except String String
  getUAAUser : String → Except String ConnectedUser
  cloudFoundryInfo : String
  pluginConfig : String
  diagnostics : Option String
  plugins : List PluginI
  buildCNSIList : List CNSIRecord
  getCNSIUserAndToken : String → String → Option (ConnectedUser × TokenRecord)
  listRelations : Except String (List RelationsRecord)
  pluginsStatus : String
  decodeJSON : String → Option (List (String × String))

/-- The body of the bucket-initialization loop (info.go lines 103-113): a
plugin without an endpoint plugin is skipped; one with a non-empty type tag
gets a fresh empty bucket. -/
def bucketStep (m : EndpointsMap) (pl : PluginI) : EndpointsMap :=
  match pl.getEndpointPlugin with
  | none => m
  | some ep => if ep.typeTag.length > 0 then assocSet m ep.typeTag [] else m

/-- Bucket initialization (info.go lines 102-113): one empty inner map per
plugin that implements the endpoint-plugin interface and has a non-empty
type tag. -/
def initBuckets (plugins : List PluginI) : EndpointsMap :=
  plugins.foldl bucketStep []

/-- Build one EndpointDetail from a CNSI record (info.go lines 117-132):
marshal the metadata, start with an empty extension-metadata map and no
shared token, then graft in the user and token projection when
GetCNSIUserAndToken succeeds. -/
def mkEndpointDetail (p : PortalProxy) (userGUID : String) (cnsi : CNSIRecord) :
    EndpointDetail :=
  let base : EndpointDetail :=
    { cnsi := cnsi
      endpointMetadata := marshalEndpointMetadata p.decodeJSON cnsi.metadata
      metadata := []
      systemSharedToken := false
      user := none
      tokenMetadata := ""
      relations := none }
  match p.getCNSIUserAndToken cnsi.guid userGUID with
  | some (cnsiUser, token) =>
      { base with
          user := some cnsiUser
          tokenMetadata := token.metadata
          systemSharedToken := token.systemShared }
  | none => base

/-- Insert every CNSI endpoint into its type bucket (info.go lines 117-135).
The write `s.Endpoints[cnsiType][cnsi.GUID] = endpoint` assigns into the inner
map without checking the outer key: when the type has no bucket the inner map
is nil and the assignment is a runtime fault, modelled as the error case. -/
def insertEndpoints (p : PortalProxy) (userGUID : String) :
    EndpointsMap → List CNSIRecord → Except String EndpointsMap
  | m, [] => .ok m
  | m, cnsi :: rest =>
      match assocGet m cnsi.cnsiType with
      | none => .error "assignment to entry in nil map"
      | some bucket =>
          insertEndpoints p userGUID
            (assocSet m cnsi.cnsiType
              (assocSet bucket cnsi.guid (mkEndpointDetail p userGUID cnsi)))
            rest

/-- The snapshot as first assembled (info.go lines 89-113): versions, user,
config passthrough, diagnostics only for an admin user, and the initialized
type buckets; the plugins status blob is still its zero value. -/
def mkInitialInfo (p : PortalProxy) (versions : String) (uaaUser : ConnectedUser) :
    Info :=
  { versions := versions
    user := uaaUser
    endpoints := initBuckets p.plugins
    cloudFoundry := p.cloudFoundryInfo
    pluginConfig := p.pluginConfig
    diagnostics := if uaaUser.admin then p.diagnostics else none
    plugins := "" }

/-- The relation-attachment step as getInfo runs it (info.go lines 137-140):
on failure the error is only logged and the snapshot is left untouched. -/
def applyRelationsStep (p : PortalProxy) (s : Info) : Info :=
  match updateEndpointsWithRelations p.listRelations s.endpoints with
  | .ok eps => { s with endpoints := eps }
  | .error _ => s

/-- Everything of getInfo up to and including the relation-attachment step:
initial snapshot, endpoint insertion (whose nil-map fault is the only failure
here), relation attachment. -/
def buildPreSnapshot (p : PortalProxy) (userGUID versions : String)
    (uaaUser : ConnectedUser) : Except String Info :=
  match insertEndpoints p userGUID (mkInitialInfo p versions uaaUser).endpoints
      p.buildCNSIList with
  | .error err => .error err
  | .ok eps =>
      .ok (applyRelationsStep p { mkInitialInfo p versions uaaUser with endpoints := eps })

/-- The body of the extension post-processing loop (info.go lines 143-148): a
plugin without an endpoint plugin is skipped; a failing UpdateMetadata leaves
the snapshot as it was. -/
def extStep (userGUID : String) (s : Info) (pl : PluginI) : Info :=
  match pl.getEndpointPlugin with
  | none => s
  | some ep =>
      match ep.updateMetadata s userGUID with
      | .ok s1 => s1
      | .error _ => s

/-- The extension post-processing loop (info.go lines 143-148): every plugin
implementing the endpoint-plugin interface has UpdateMetadata run in
registration order. -/
def runExtensions (plugins : List PluginI) (userGUID : String) (s : Info) : Info :=
  plugins.foldl (extStep userGUID) s

/-- getInfo (info.go lines 70-153): resolve versions, session user id and the
UAA user (each failure is request-fatal), build the snapshot through the
relation step, run the extensions, then set the plugins status blob. -/
def getInfo (p : PortalProxy) : Except String Info :=
  match p.getVersionsData with
  | .error _ => .error "Could not find database version"
  | .ok versions =>
      match p.sessionUserId with
      | .error _ => .error "Could not find session user_id"
      | .ok userGUID =>
          match p.getUAAUser userGUID with
          | .error _ => .error "Could not load session user data"
          | .ok uaaUser =>
              match buildPreSnapshot p userGUID versions uaaUser with
              | .error err => .error err
              | .ok s4 =>
                  .ok { runExtensions p.plugins userGUID s4 with
                          plugins := p.pluginsStatus }

/-- One endpoint's slice of a CF list response: its total_pages count and its
resource page (resources kept opaque). -/
structure CFEndpointResp where
  total_pages : Nat
  resources : List String
deriving DecidableEq

/-- A CF multi-endpoint response: endpoint guid → per-endpoint response, in
key order (Object.keys order of the response object). -/
abbrev CFResponse : Type := List (String × CFEndpointResp)

/-- CfAPIFlattener.getTotalPages (paginated-request-helpers.ts lines 36-40):
reduce over the endpoint keys, keeping the largest total_pages, from 0. -/
def getTotalPages (res : CFResponse) : Nat :=
  res.foldl
    (fun mx p => if mx < p.2.total_pages then p.2.total_pages else mx) 0

/-- The page indices the for-loop of flattenPagination walks: i = from up to
and including maxRequests. -/
def pageRange (from0 maxRequests : Nat) : List Nat :=
  List.range' from0 (maxRequests + 1 - from0)

/-- The responses flattenPagination joins (paginated-request-helpers.ts lines
76-84): the already-made first response, then one fetch per page index from 2
up to the endpoint-maximal page count of the first response. -/
def flattenPaginationRequests {T : Type} (getTP : T → Nat) (fetch : Nat → T)
    (firstResData : T) : List T :=
  firstResData :: (pageRange 2 (getTP firstResData)).map fetch

/-- flattenPagination (paginated-request-helpers.ts lines 67-91): join the
first response with the extra page fetches, then merge them all. -/
def flattenPagination {T : Type} (getTP : T → Nat) (fetch : Nat → T)
    (mergePages : List T → T) (firstResData : T) : T :=
  mergePages (flattenPaginationRequests getTP fetch firstResData)

/-- A bare endpoint detail as getInfo builds it before credentials and
relations are attached, used as concrete test input. -/
def mkPlainDetail (t g : String) : EndpointDetail :=
  { cnsi := { guid := g, cnsiType := t, name := g, metadata := "" }
    endpointMetadata := MetaValue.str ""
    metadata := []
    systemSharedToken := false
    user := none
    tokenMetadata := ""
    relations := none }

/-- Concrete self-relation: endpoint epA is both provider and target. -/
def relC1 : RelationsRecord :=
  { provider := "epA", target := "epA", relationType := "rt", metadata := "md" }

/-- Concrete one-endpoint snapshot map holding epA only. -/
def mapC1 : EndpointsMap := [("cf", [("epA", mkPlainDetail "cf" "epA")])]

/-- Concrete dangling relation: provider epA exists, target gone was deleted. -/
def relC2 : RelationsRecord :=
  { provider := "epA", target := "gone", relationType := "rt", metadata := "md" }

/-- Concrete one-endpoint snapshot map holding epA only (target gone absent). -/
def mapC2 : EndpointsMap := [("cf", [("epA", mkPlainDetail "cf" "epA")])]

/-- Concrete relation between the two distinct endpoints epA and epB. -/
def relC5 : RelationsRecord :=
  { provider := "epA", target := "epB", relationType := "deploys-to", metadata := "md" }

/-- Concrete two-endpoint snapshot map holding epA (type cf) and epB (type k8s). -/
def mapC5 : EndpointsMap :=
  [("cf", [("epA", mkPlainDetail "cf" "epA")]),
   ("k8s", [("epB", mkPlainDetail "k8s" "epB")])]

/-- A base request environment with trivial collaborators: versions, session
and user resolution succeed, a non-admin user, no plugins, no endpoints, no
relations; each test proxy overrides the fields it exercises. -/
def baseProxy : PortalProxy :=
  { getVersionsData := Except.ok "v1"
    sessionUserId := Except.ok "u1"
    getUAAUser := fun _ => Except.ok { guid := "u1", admin := false }
    cloudFoundryInfo := ""
    pluginConfig := ""
    diagnostics := some "diag"
    plugins := []
    buildCNSIList := []
    getCNSIUserAndToken := fun _ _ => none
    listRelations := Except.ok []
    pluginsStatus := "ps"
    decodeJSON := fun _ => none }

/-- An extension that writes the diagnostics field into the snapshot. -/
def leakPlugin : PluginI :=
  { getEndpointPlugin := some
      { typeTag := ""
        updateMetadata := fun s _ => Except.ok { s with diagnostics := some "leak" } } }

/-- An extension whose post-process step succeeds without touching anything. -/
def identPlugin : PluginI :=
  { getEndpointPlugin := some
      { typeTag := "", updateMetadata := fun s _ => Except.ok s } }

/-- An extension whose post-process step always fails. -/
def failPlugin : PluginI :=
  { getEndpointPlugin := some
      { typeTag := "", updateMetadata := fun _ _ => Except.error "boom" } }

/-- An endpoint plugin owning the type tag cf, post-processing as identity. -/
def cfPlugin : PluginI :=
  { getEndpointPlugin := some
      { typeTag := "cf", updateMetadata := fun s _ => Except.ok s } }

/-- Request environment for a non-admin user with a diagnostics-leaking
extension registered. -/
def proxyC3 : PortalProxy := { baseProxy with plugins := [leakPlugin] }

/-- Request environment for a non-admin user with a well-behaved extension. -/
def proxyC3w : PortalProxy := { baseProxy with plugins := [identPlugin] }

/-- Request environment with a failing extension followed by a healthy one. -/
def proxyC4 : PortalProxy := { baseProxy with plugins := [failPlugin, identPlugin] }

/-- The pre-extension snapshot proxyC4 produces: no buckets, no endpoints,
no diagnostics (non-admin). -/
def infoC4 : Info :=
  { versions := "v1"
    user := { guid := "u1", admin := false }
    endpoints := []
    cloudFoundry := ""
    pluginConfig := ""
    diagnostics := none
    plugins := "" }

/-- Request environment with one cf-typed plugin and no endpoints. -/
def proxyC6 : PortalProxy := { baseProxy with plugins := [cfPlugin] }

/-- A registered endpoint of type cf. -/
def cnsiC7 : CNSIRecord :=
  { guid := "epA", cnsiType := "cf", name := "epA", metadata := "" }

/-- Request environment listing a cf endpoint while no plugin owns the cf
type, so no bucket is initialized for it. -/
def proxyC7bad : PortalProxy := { baseProxy with buildCNSIList := [cnsiC7] }

/-- Request environment listing a cf endpoint with the cf plugin registered. -/
def proxyC7good : PortalProxy :=
  { baseProxy with plugins := [cfPlugin], buildCNSIList := [cnsiC7] }

/-- Request environment whose relations listing fails. -/
def proxyC8 : PortalProxy :=
  { baseProxy with
      plugins := [cfPlugin]
      buildCNSIList := [cnsiC7]
      listRelations := Except.error "db down" }

/-- The endpoints map proxyC8 computes before the relation step. -/
def epsC8 : EndpointsMap := [("cf", [("epA", mkPlainDetail "cf" "epA")])]

/-- A concrete first-page response with endpoint page counts 3 and 2. -/
def resC9 : CFResponse :=
  [("e1", { total_pages := 3, resources := [] }),
   ("e2", { total_pages := 2, resources := [] })]

theorem foldl_relStep_provides (g : String) (rels : List RelationsRecord) :
    ∀ acc : EndpointRelations,
      (rels.foldl (relStep g) acc).provides =
        acc.provides ++ (rels.filter (fun r => r.provider == g)).map provEntry := by
  induction rels with
  | nil => intro acc; simp
  | cons r rest ih =>
      intro acc
      rw [List.foldl_cons, List.filter_cons, ih]
      by_cases hp : (r.provider == g) = true
      · simp [relStep, hp, provEntry]
      · by_cases ht : (r.target == g) = true
        · simp [relStep, hp, ht]
        · simp [relStep, hp, ht]

theorem foldl_relStep_receives (g : String) (rels : List RelationsRecord) :
    ∀ acc : EndpointRelations,
      (rels.foldl (relStep g) acc).receives =
        acc.receives ++
          (rels.filter (fun r => !(r.provider == g) && (r.target == g))).map recvEntry := by
  induction rels with
  | nil => intro acc; simp
  | cons r rest ih =>
      intro acc
      rw [List.foldl_cons, List.filter_cons, ih]
      by_cases hp : (r.provider == g) = true
      · simp [relStep, hp]
      · by_cases ht : (r.target == g) = true
        · simp [relStep, hp, ht, recvEntry]
        · simp [relStep, hp, ht]

theorem providesOf_attachRelations (rels : List RelationsRecord) (e : EndpointDetail) :
    providesOf (attachRelations rels e) =
      providesOf e ++
        (rels.filter (fun r => r.provider == e.cnsi.guid)).map provEntry := by
  cases h : e.relations with
  | none => simp [attachRelations, providesOf, h, foldl_relStep_provides]
  | some r0 => simp [attachRelations, providesOf, h, foldl_relStep_provides]

theorem receivesOf_attachRelations (rels : List RelationsRecord) (e : EndpointDetail) :
    receivesOf (attachRelations rels e) =
      receivesOf e ++
        (rels.filter
          (fun r => !(r.provider == e.cnsi.guid) && (r.target == e.cnsi.guid))).map
          recvEntry := by
  cases h : e.relations with
  | none => simp [attachRelations, receivesOf, h, foldl_relStep_receives]
  | some r0 => simp [attachRelations, receivesOf, h, foldl_relStep_receives]

theorem assocGet_map {α β : Type} (f : α → β) (m : List (String × α)) (k : String) :
    assocGet (m.map (fun p => (p.1, f p.2))) k = (assocGet m k).map f := by
  induction m with
  | nil => simp [assocGet]
  | cons p rest ih =>
      by_cases h : (p.1 == k) = true
      · simp [assocGet, h]
      · simp [assocGet, h, ih]

theorem assocGet2_mapEndpoints (f : EndpointDetail → EndpointDetail)
    (m : EndpointsMap) (t g : String) :
    assocGet2 (mapEndpoints f m) t g = (assocGet2 m t g).map f := by
  induction m with
  | nil => simp [assocGet2, assocGet, mapEndpoints]
  | cons p rest ih =>
      by_cases h : (p.1 == t) = true
      · simp [assocGet2, assocGet, mapEndpoints, h, assocGet_map]
      · simpa [assocGet2, assocGet, mapEndpoints, h] using ih

theorem count_map_filter_eq {α β : Type} [DecidableEq α] [DecidableEq β]
    (f : α → β) (p : α → Bool) (a : α) (hpa : p a = true)
    (hinj : ∀ x, p x = true → f x = f a → x = a)
    (l : List α) : ((l.filter p).map f).count (f a) = l.count a := by
  induction l with
  | nil => simp
  | cons x rest ih =>
      rw [List.filter_cons]
      by_cases hx : p x = true
      · rw [if_pos hx, List.map_cons, List.count_cons, List.count_cons, ih]
        by_cases hxa : x = a
        · simp [hxa]
        · have hne : f x ≠ f a := fun hcontra => hxa (hinj x hx hcontra)
          simp [hxa, hne]
      · rw [if_neg hx, ih, List.count_cons]
        have hxa : x ≠ a := fun hcontra => hx (hcontra ▸ hpa)
        simp [hxa]

theorem count_map_filter_zero {α β : Type} [DecidableEq β]
    (f : α → β) (p : α → Bool) (b : β)
    (h : ∀ x, p x = true → f x ≠ b)
    (l : List α) : ((l.filter p).map f).count b = 0 := by
  rw [List.count_eq_zero]
  intro hmem
  rcases List.mem_map.mp hmem with ⟨x, hxmem, hfx⟩
  rcases List.mem_filter.mp hxmem with ⟨_, hpx⟩
  exact h x hpx hfx

theorem relStep_skip (g : String) (acc : EndpointRelations) (r : RelationsRecord)
    (hp : r.provider ≠ g) (ht : r.target ≠ g) : relStep g acc r = acc := by
  simp [relStep, hp, ht]

theorem attachRelations_middle_skip (rels1 rels2 : List RelationsRecord)
    (r : RelationsRecord) (E : EndpointDetail)
    (hp : r.provider ≠ E.cnsi.guid) (ht : r.target ≠ E.cnsi.guid) :
    attachRelations (rels1 ++ r :: rels2) E = attachRelations (rels1 ++ rels2) E := by
  have h1 : ∀ acc, relStep E.cnsi.guid acc r = acc :=
    fun acc => relStep_skip _ acc _ hp ht
  simp only [attachRelations]
  rw [List.foldl_append, List.foldl_append, List.foldl_cons, h1]

/-- C1 (counterexample): with the single self-relation (epA, epA) attached to
the one-endpoint map, the pair (count in Provides, count in Receives) of the
induced entries is (1, 0), not (1, 1) as the claim states: the else-if of
updateEndpointsWithRelations gives the provider branch precedence, so a
self-relation never reaches the Receives list. -/
theorem C1_self_relation_counterexample :
    ¬ (((updateEndpointsWithRelations (Except.ok [relC1]) mapC1).toOption.bind
        (fun m2 => (assocGet2 m2 "cf" "epA").map
          (fun d => ((providesOf d).count (provEntry relC1),
                     (receivesOf d).count (recvEntry relC1)))))
      = some (1, 1)) := by decide

/-- C1 (amended): for every endpoint E present in the snapshot (whose detail
carries E's identifier and no prior Relations pair) and every self-relation
occurring exactly once in the relation list whose provider and target both
equal E's identifier, after updateEndpointsWithRelations E's Provides contains
exactly one entry for that relation and E's Receives contains no entry for it
(the provider branch of the else-if wins, so the self-relation is recorded on
the Provides side only). -/
theorem C1_self_relation_amended
    (m : EndpointsMap) (rels : List RelationsRecord) (t g : String)
    (E : EndpointDetail) (r : RelationsRecord)
    (hget : assocGet2 m t g = some E)
    (hguid : E.cnsi.guid = g)
    (hrel : E.relations = none)
    (hp : r.provider = g) (ht : r.target = g)
    (hcount : rels.count r = 1) :
    ∃ m2, updateEndpointsWithRelations (Except.ok rels) m = Except.ok m2 ∧
      ∃ E2, assocGet2 m2 t g = some E2 ∧
        (providesOf E2).count (provEntry r) = 1 ∧
        (receivesOf E2).count (recvEntry r) = 0 := by
  refine ⟨mapEndpoints (attachRelations rels) m, rfl,
    attachRelations rels E, ?_, ?_, ?_⟩
  · rw [assocGet2_mapEndpoints, hget]
    rfl
  · rw [providesOf_attachRelations]
    have hPE : providesOf E = [] := by simp [providesOf, hrel]
    rw [hPE, List.nil_append, hguid]
    have hinj : ∀ x, (x.provider == g) = true → provEntry x = provEntry r → x = r := by
      intro x hx hfx
      have hxp : x.provider = g := by simpa using hx
      cases x
      cases r
      simp only [provEntry, EndpointRelation.mk.injEq] at hfx
      simp only [RelationsRecord.mk.injEq]
      exact ⟨hxp.trans hp.symm, hfx.1, hfx.2.1, hfx.2.2⟩
    have hpa : (fun x : RelationsRecord => x.provider == g) r = true := by simp [hp]
    rw [count_map_filter_eq provEntry (fun x => x.provider == g) r hpa hinj rels, hcount]
  · rw [receivesOf_attachRelations]
    have hRE : receivesOf E = [] := by simp [receivesOf, hrel]
    rw [hRE, List.nil_append, hguid]
    have hzero : ∀ x : RelationsRecord,
        (fun x : RelationsRecord => !(x.provider == g) && (x.target == g)) x = true →
          recvEntry x ≠ recvEntry r := by
      intro x hx hcontra
      have h1 : x.provider ≠ g := by
        simp only [Bool.and_eq_true, Bool.not_eq_true', beq_eq_false_iff_ne] at hx
        exact hx.1
      have h2 : x.provider = r.provider := congrArg EndpointRelation.guid hcontra
      exact h1 (h2.trans hp)
    exact count_map_filter_zero recvEntry _ (recvEntry r) hzero rels

/-- C1 (witness): the amended theorem applied to the concrete one-endpoint map
and the concrete self-relation. -/
theorem C1_self_relation_witness :
    ∃ m2, updateEndpointsWithRelations (Except.ok [relC1]) mapC1 = Except.ok m2 ∧
      ∃ E2, assocGet2 m2 "cf" "epA" = some E2 ∧
        (providesOf E2).count (provEntry relC1) = 1 ∧
        (receivesOf E2).count (recvEntry relC1) = 0 :=
  C1_self_relation_amended mapC1 [relC1] "cf" "epA" (mkPlainDetail "cf" "epA") relC1
    (by decide) (by decide) (by decide) (by decide) (by decide) (by decide)

/-- C2 (counterexample): with the dangling relation (epA, gone) whose target
endpoint is no longer in the map, the surviving provider epA still receives a
Provides entry referencing the deleted peer, so the relation is not dropped
from the output as the claim states. -/
theorem C2_dangling_relation_counterexample :
    ¬ (((updateEndpointsWithRelations (Except.ok [relC2]) mapC2).toOption.bind
        (fun m2 => (assocGet2 m2 "cf" "epA").map providesOf)) = some []) := by decide

/-- C2 (amended): the relation-attachment step never fails when ListRelations
succeeds, even in the presence of a dangling relation; the deleted endpoint
itself stays absent from the output map, and every endpoint that is neither
provider nor target of the dangling relation has exactly the lists it would
have without it; however, an endpoint still present that is the dangling
relation's provider does get a Provides entry referencing the deleted peer,
and one that is its target (with a distinct provider) does get a Receives
entry referencing the deleted peer (the relation is not dropped from the
output). -/
theorem C2_dangling_relation_amended
    (m : EndpointsMap) (rels1 rels2 : List RelationsRecord) (r : RelationsRecord)
    (tD gD : String)
    (habsent : assocGet2 m tD gD = none) :
    (∃ m2, updateEndpointsWithRelations (Except.ok (rels1 ++ r :: rels2)) m
        = Except.ok m2) ∧
    (∀ E : EndpointDetail, r.provider ≠ E.cnsi.guid → r.target ≠ E.cnsi.guid →
        attachRelations (rels1 ++ r :: rels2) E = attachRelations (rels1 ++ rels2) E) ∧
    (∀ m2, updateEndpointsWithRelations (Except.ok (rels1 ++ r :: rels2)) m
          = Except.ok m2 →
        assocGet2 m2 tD gD = none) ∧
    (∀ t g E, assocGet2 m t g = some E → E.cnsi.guid = r.provider →
        ∃ E2,
          assocGet2 (mapEndpoints (attachRelations (rels1 ++ r :: rels2)) m) t g
              = some E2 ∧
          provEntry r ∈ providesOf E2) ∧
    (∀ t g E, assocGet2 m t g = some E → E.cnsi.guid = r.target →
        r.provider ≠ E.cnsi.guid →
        ∃ E2,
          assocGet2 (mapEndpoints (attachRelations (rels1 ++ r :: rels2)) m) t g
              = some E2 ∧
          recvEntry r ∈ receivesOf E2) := by
  refine ⟨⟨mapEndpoints (attachRelations (rels1 ++ r :: rels2)) m, rfl⟩, ?_, ?_, ?_, ?_⟩
  · intro E h1 h2
    exact attachRelations_middle_skip rels1 rels2 r E h1 h2
  · intro m2 heq
    have hm2 : m2 = mapEndpoints (attachRelations (rels1 ++ r :: rels2)) m := by
      simpa [updateEndpointsWithRelations] using heq.symm
    rw [hm2, assocGet2_mapEndpoints, habsent]
    rfl
  · intro t g E hget hguid
    refine ⟨attachRelations (rels1 ++ r :: rels2) E, ?_, ?_⟩
    · rw [assocGet2_mapEndpoints, hget]
      rfl
    · rw [providesOf_attachRelations]
      apply List.mem_append_right
      apply List.mem_map.mpr
      refine ⟨r, List.mem_filter.mpr ⟨by simp, by simp [hguid]⟩, rfl⟩
  · intro t g E hget hguid hne
    refine ⟨attachRelations (rels1 ++ r :: rels2) E, ?_, ?_⟩
    · rw [assocGet2_mapEndpoints, hget]
      rfl
    · rw [receivesOf_attachRelations]
      apply List.mem_append_right
      apply List.mem_map.mpr
      refine ⟨r, List.mem_filter.mpr ⟨by simp, ?_⟩, rfl⟩
      have h1 : r.provider ≠ r.target := hguid ▸ hne
      simp [hguid, h1]

/-- C2 (witness): the amended theorem applied to the concrete map holding only
epA and the concrete dangling relation (epA, gone). -/
theorem C2_dangling_relation_witness :
    (∃ m2, updateEndpointsWithRelations (Except.ok ([] ++ relC2 :: [])) mapC2
        = Except.ok m2) ∧
    (∀ E : EndpointDetail, relC2.provider ≠ E.cnsi.guid → relC2.target ≠ E.cnsi.guid →
        attachRelations ([] ++ relC2 :: []) E = attachRelations ([] ++ []) E) ∧
    (∀ m2, updateEndpointsWithRelations (Except.ok ([] ++ relC2 :: [])) mapC2
          = Except.ok m2 →
        assocGet2 m2 "k8s" "gone" = none) ∧
    (∀ t g E, assocGet2 mapC2 t g = some E → E.cnsi.guid = relC2.provider →
        ∃ E2,
          assocGet2 (mapEndpoints (attachRelations ([] ++ relC2 :: [])) mapC2) t g
              = some E2 ∧
          provEntry relC2 ∈ providesOf E2) ∧
    (∀ t g E, assocGet2 mapC2 t g = some E → E.cnsi.guid = relC2.target →
        relC2.provider ≠ E.cnsi.guid →
        ∃ E2,
          assocGet2 (mapEndpoints (attachRelations ([] ++ relC2 :: [])) mapC2) t g
              = some E2 ∧
          recvEntry relC2 ∈ receivesOf E2) :=
  C2_dangling_relation_amended mapC2 [] [] relC2 "k8s" "gone" (by decide)

/-- C5 (confirmed): for every relation R = (provider A, target B) with A and B
distinct and both present in the snapshot map, after
updateEndpointsWithRelations A's Provides contains the entry (B, R's type,
R's metadata) and B's Receives contains the entry (A, R's type, R's metadata). -/
theorem C5_relation_attachment
    (m : EndpointsMap) (rels : List RelationsRecord) (r : RelationsRecord)
    (tA gA tB gB : String) (EA EB : EndpointDetail)
    (hA : assocGet2 m tA gA = some EA) (hAg : EA.cnsi.guid = gA)
    (hB : assocGet2 m tB gB = some EB) (hBg : EB.cnsi.guid = gB)
    (hr : r ∈ rels) (hp : r.provider = gA) (ht : r.target = gB) (hne : gA ≠ gB) :
    ∃ m2, updateEndpointsWithRelations (Except.ok rels) m = Except.ok m2 ∧
      (∃ EA2, assocGet2 m2 tA gA = some EA2 ∧ provEntry r ∈ providesOf EA2) ∧
      (∃ EB2, assocGet2 m2 tB gB = some EB2 ∧ recvEntry r ∈ receivesOf EB2) := by
  refine ⟨mapEndpoints (attachRelations rels) m, rfl,
    ⟨attachRelations rels EA, ?_, ?_⟩, ⟨attachRelations rels EB, ?_, ?_⟩⟩
  · rw [assocGet2_mapEndpoints, hA]
    rfl
  · rw [providesOf_attachRelations]
    apply List.mem_append_right
    apply List.mem_map.mpr
    refine ⟨r, List.mem_filter.mpr ⟨hr, by simp [hAg, hp]⟩, rfl⟩
  · rw [assocGet2_mapEndpoints, hB]
    rfl
  · rw [receivesOf_attachRelations]
    apply List.mem_append_right
    apply List.mem_map.mpr
    refine ⟨r, List.mem_filter.mpr ⟨hr, ?_⟩, rfl⟩
    have h1 : r.provider ≠ gB := by
      rw [hp]
      exact hne
    simp [hBg, ht, h1]

/-- C5 (witness): the theorem applied to the concrete two-endpoint map (epA of
type cf, epB of type k8s) and the concrete relation (epA, epB). -/
theorem C5_relation_attachment_witness :
    ∃ m2, updateEndpointsWithRelations (Except.ok [relC5]) mapC5 = Except.ok m2 ∧
      (∃ EA2, assocGet2 m2 "cf" "epA" = some EA2 ∧ provEntry relC5 ∈ providesOf EA2) ∧
      (∃ EB2, assocGet2 m2 "k8s" "epB" = some EB2 ∧ recvEntry relC5 ∈ receivesOf EB2) :=
  C5_relation_attachment mapC5 [relC5] relC5 "cf" "epA" "k8s" "epB"
    (mkPlainDetail "cf" "epA") (mkPlainDetail "k8s" "epB")
    (by decide) (by decide) (by decide) (by decide)
    (by decide) (by decide) (by decide) (by decide)

theorem assocGet_assocSet {α : Type} (k k2 : String) (v : α) :
    ∀ m : List (String × α),
      assocGet (assocSet m k v) k2 = if k == k2 then some v else assocGet m k2 := by
  intro m
  induction m with
  | nil => rfl
  | cons p rest ih =>
      obtain ⟨k0, v0⟩ := p
      by_cases h1 : (k0 == k) = true
      · have hk0 : k0 = k := by simpa using h1
        simp only [assocSet, if_pos h1]
        by_cases h2 : (k == k2) = true
        · simp only [assocGet, if_pos h2]
        · have h0 : ¬ ((k0 == k2) = true) := by
            intro hc
            exact h2 (by rw [← hk0]; exact hc)
          simp only [assocGet, if_neg h2, if_neg h0]
      · simp only [assocSet, if_neg h1, assocGet]
        by_cases h2 : (k0 == k2) = true
        · have hk02 : k0 = k2 := by simpa using h2
          have hkk : ¬ ((k == k2) = true) := by
            intro hc
            have h3 : k = k2 := by simpa using hc
            exact h1 (by simp [hk02, h3])
          simp only [if_pos h2, if_neg hkk]
        · simp only [if_neg h2, ih]

theorem containsKey_assocSet_self_or {α : Type} (m : List (String × α))
    (k k2 : String) (v : α) :
    containsKey (assocSet m k v) k2 = true ↔ (k = k2 ∨ containsKey m k2 = true) := by
  simp only [containsKey, assocGet_assocSet]
  by_cases h : (k == k2) = true
  · have hk : k = k2 := by simpa using h
    simp [if_pos h, hk]
  · have hk : ¬ k = k2 := by
      intro hc
      exact h (by simp [hc])
    simp [if_neg h, hk]

theorem containsKey_assocSet_present {α : Type} (m : List (String × α))
    (k : String) (v : α) (h : containsKey m k = true) :
    ∀ k2, containsKey (assocSet m k v) k2 = containsKey m k2 := by
  intro k2
  simp only [containsKey, assocGet_assocSet]
  by_cases h2 : (k == k2) = true
  · have hk : k = k2 := by simpa using h2
    rw [if_pos h2]
    simp only [containsKey, ← hk] at *
    simp [h]
  · rw [if_neg h2]

theorem containsKey_mapEndpoints (f : EndpointDetail → EndpointDetail)
    (m : EndpointsMap) (k : String) :
    containsKey (mapEndpoints f m) k = containsKey m k := by
  induction m with
  | nil => rfl
  | cons p rest ih =>
      simp only [mapEndpoints, List.map_cons, containsKey, assocGet]
      by_cases h : (p.1 == k) = true
      · simp [h]
      · simp only [if_neg h]
        simpa [mapEndpoints, containsKey] using ih

theorem containsKey_applyRelationsStep (p : PortalProxy) (s : Info) (k : String) :
    containsKey (applyRelationsStep p s).endpoints k = containsKey s.endpoints k := by
  cases hl : p.listRelations with
  | error e => simp [applyRelationsStep, updateEndpointsWithRelations, hl]
  | ok rels =>
      simp [applyRelationsStep, updateEndpointsWithRelations, hl,
        containsKey_mapEndpoints]

theorem applyRelationsStep_diagnostics (p : PortalProxy) (s : Info) :
    (applyRelationsStep p s).diagnostics = s.diagnostics := by
  cases h : updateEndpointsWithRelations p.listRelations s.endpoints with
  | ok eps => simp [applyRelationsStep, h]
  | error e => simp [applyRelationsStep, h]

theorem runExtensions_append (l1 l2 : List PluginI) (uid : String) (s : Info) :
    runExtensions (l1 ++ l2) uid s = runExtensions l2 uid (runExtensions l1 uid s) := by
  simp [runExtensions, List.foldl_append]

theorem runExtensions_cons (pl : PluginI) (l : List PluginI) (uid : String) (s : Info) :
    runExtensions (pl :: l) uid s = runExtensions l uid (extStep uid s pl) := rfl

theorem runExtensions_preserves_diagnostics (uid : String) :
    ∀ (plugins : List PluginI) (s : Info),
      (∀ pl ∈ plugins, ∀ ep, pl.getEndpointPlugin = some ep →
        ∀ s1 s2 uid2, ep.updateMetadata s1 uid2 = Except.ok s2 →
          s2.diagnostics = s1.diagnostics) →
      (runExtensions plugins uid s).diagnostics = s.diagnostics := by
  intro plugins
  induction plugins with
  | nil => intro s h; rfl
  | cons pl rest ih =>
      intro s h
      rw [runExtensions_cons,
        ih (extStep uid s pl) (fun pl2 h2 => h pl2 (List.mem_cons_of_mem _ h2))]
      cases hep : pl.getEndpointPlugin with
      | none => simp [extStep, hep]
      | some ep =>
          cases hu : ep.updateMetadata s uid with
          | ok s2 =>
              simp only [extStep, hep, hu]
              exact h pl (List.mem_cons_self _ _) ep hep s s2 uid hu
          | error e => simp [extStep, hep, hu]

theorem runExtensions_preserves_keys (uid : String) :
    ∀ (plugins : List PluginI) (s : Info),
      (∀ pl ∈ plugins, ∀ ep, pl.getEndpointPlugin = some ep →
        ∀ s1 s2 uid2, ep.updateMetadata s1 uid2 = Except.ok s2 →
          ∀ k, containsKey s2.endpoints k = containsKey s1.endpoints k) →
      ∀ k, containsKey (runExtensions plugins uid s).endpoints k
        = containsKey s.endpoints k := by
  intro plugins
  induction plugins with
  | nil => intro s h k; rfl
  | cons pl rest ih =>
      intro s h k
      rw [runExtensions_cons,
        ih (extStep uid s pl) (fun pl2 h2 => h pl2 (List.mem_cons_of_mem _ h2)) k]
      cases hep : pl.getEndpointPlugin with
      | none => simp [extStep, hep]
      | some ep =>
          cases hu : ep.updateMetadata s uid with
          | ok s2 =>
              simp only [extStep, hep, hu]
              exact h pl (List.mem_cons_self _ _) ep hep s s2 uid hu k
          | error e => simp [extStep, hep, hu]

theorem insertEndpoints_ok (p : PortalProxy) (uid : String) :
    ∀ (l : List CNSIRecord) (m m2 : EndpointsMap),
      insertEndpoints p uid m l = Except.ok m2 →
      (∀ k, containsKey m2 k = containsKey m k) ∧
      (∀ cnsi ∈ l, containsKey m cnsi.cnsiType = true) := by
  intro l
  induction l with
  | nil =>
      intro m m2 h
      cases h
      exact ⟨fun k => rfl, by simp⟩
  | cons c rest ih =>
      intro m m2 h
      simp only [insertEndpoints] at h
      cases hb : assocGet m c.cnsiType with
      | none => rw [hb] at h; cases h
      | some bucket =>
          rw [hb] at h
          have hc : containsKey m c.cnsiType = true := by simp [containsKey, hb]
          obtain ⟨hkeys, hrest⟩ := ih _ _ h
          have hpres := containsKey_assocSet_present m c.cnsiType
            (assocSet bucket c.guid (mkEndpointDetail p uid c)) hc
          refine ⟨fun k => (hkeys k).trans (hpres k), ?_⟩
          intro cnsi hmem
          rcases List.mem_cons.mp hmem with h1 | h2
          · rw [h1]; exact hc
          · exact (hpres cnsi.cnsiType).symm.trans (hrest cnsi h2)

theorem containsKey_foldl_bucketStep (k : String) :
    ∀ (plugins : List PluginI) (acc : EndpointsMap),
      containsKey (plugins.foldl bucketStep acc) k = true ↔
        (containsKey acc k = true ∨
          ∃ pl ∈ plugins, ∃ ep, pl.getEndpointPlugin = some ep ∧
            ep.typeTag = k ∧ ep.typeTag.length > 0) := by
  intro plugins
  induction plugins with
  | nil => intro acc; simp
  | cons pl rest ih =>
      intro acc
      rw [List.foldl_cons, ih]
      cases hep : pl.getEndpointPlugin with
      | none =>
          simp only [bucketStep, hep]
          constructor
          · rintro (h | ⟨pl2, hmem, rest2⟩)
            · exact Or.inl h
            · exact Or.inr ⟨pl2, List.mem_cons_of_mem _ hmem, rest2⟩
          · rintro (h | ⟨pl2, hmem, ep2, hep2, hrest2⟩)
            · exact Or.inl h
            · rcases List.mem_cons.mp hmem with h1 | h1
              · rw [h1, hep] at hep2
                cases hep2
              · exact Or.inr ⟨pl2, h1, ep2, hep2, hrest2⟩
      | some ep =>
          simp only [bucketStep, hep]
          by_cases hlen : ep.typeTag.length > 0
          · rw [if_pos hlen]
            constructor
            · rintro (h | ⟨pl2, hmem, rest2⟩)
              · rw [containsKey_assocSet_self_or] at h
                rcases h with h | h
                · exact Or.inr ⟨pl, List.mem_cons_self _ _, ep, hep, h, hlen⟩
                · exact Or.inl h
              · exact Or.inr ⟨pl2, List.mem_cons_of_mem _ hmem, rest2⟩
            · rintro (h | ⟨pl2, hmem, ep2, hep2, htag, hlen2⟩)
              · refine Or.inl ?_
                rw [containsKey_assocSet_self_or]
                exact Or.inr h
              · rcases List.mem_cons.mp hmem with h1 | h1
                · rw [h1, hep] at hep2
                  cases hep2
                  refine Or.inl ?_
                  rw [containsKey_assocSet_self_or]
                  exact Or.inl htag
                · exact Or.inr ⟨pl2, h1, ep2, hep2, htag, hlen2⟩
          · rw [if_neg hlen]
            constructor
            · rintro (h | ⟨pl2, hmem, rest2⟩)
              · exact Or.inl h
              · exact Or.inr ⟨pl2, List.mem_cons_of_mem _ hmem, rest2⟩
            · rintro (h | ⟨pl2, hmem, ep2, hep2, htag, hlen2⟩)
              · exact Or.inl h
              · rcases List.mem_cons.mp hmem with h1 | h1
                · rw [h1, hep] at hep2
                  cases hep2
                  exact absurd hlen2 hlen
                · exact Or.inr ⟨pl2, h1, ep2, hep2, htag, hlen2⟩

theorem buildPreSnapshot_diagnostics (p : PortalProxy) (uid v : String)
    (u : ConnectedUser) (s4 : Info)
    (h : buildPreSnapshot p uid v u = Except.ok s4) :
    s4.diagnostics = (if u.admin then p.diagnostics else none) := by
  unfold buildPreSnapshot at h
  cases hi : insertEndpoints p uid (mkInitialInfo p v u).endpoints p.buildCNSIList with
  | error e => rw [hi] at h; cases h
  | ok eps =>
      rw [hi] at h
      cases h
      rw [applyRelationsStep_diagnostics]
      rfl

theorem buildPreSnapshot_keys (p : PortalProxy) (uid v : String)
    (u : ConnectedUser) (s4 : Info)
    (h : buildPreSnapshot p uid v u = Except.ok s4) :
    ∀ k, containsKey s4.endpoints k = containsKey (initBuckets p.plugins) k := by
  unfold buildPreSnapshot at h
  cases hi : insertEndpoints p uid (mkInitialInfo p v u).endpoints p.buildCNSIList with
  | error e => rw [hi] at h; cases h
  | ok eps =>
      rw [hi] at h
      cases h
      intro k
      rw [containsKey_applyRelationsStep]
      exact (insertEndpoints_ok p uid p.buildCNSIList _ eps hi).1 k

/-- C3 (counterexample): with a non-admin user and the diagnostics-leaking
extension registered, getInfo returns a snapshot whose diagnostics field is
set to the leaked value rather than omitted: no least-privilege projection
runs after extension post-processing (the admin check of info.go lines 97-100
runs before the extension loop of lines 142-148). -/
theorem C3_diagnostics_counterexample :
    ((getInfo proxyC3).toOption.map Info.diagnostics = some (some "leak")) ∧
    ¬ ((getInfo proxyC3).toOption.map Info.diagnostics = some none) := by
  constructor
  · decide
  · decide

/-- C3 (amended): the aggregator itself sets the diagnostics field only for an
admin user, and it does so before the extension loop; hence a non-admin
snapshot contains no diagnostics provided every registered extension's
post-process step preserves the diagnostics field. The projection does not
run after extension post-processing, so this proviso cannot be dropped (see
the counterexample). -/
theorem C3_diagnostics_amended
    (p : PortalProxy) (uid : String) (u : ConnectedUser)
    (hsess : p.sessionUserId = Except.ok uid)
    (huser : p.getUAAUser uid = Except.ok u)
    (hadmin : u.admin = false)
    (hext : ∀ pl ∈ p.plugins, ∀ ep, pl.getEndpointPlugin = some ep →
        ∀ s1 s2 uid2, ep.updateMetadata s1 uid2 = Except.ok s2 →
          s2.diagnostics = s1.diagnostics) :
    ∀ s, getInfo p = Except.ok s → s.diagnostics = none := by
  intro s hs
  cases hv : p.getVersionsData with
  | error e => simp only [getInfo, hv] at hs; cases hs
  | ok v =>
      simp only [getInfo, hv, hsess, huser] at hs
      cases hpre : buildPreSnapshot p uid v u with
      | error err => rw [hpre] at hs; cases hs
      | ok s4 =>
          rw [hpre] at hs
          cases hs
          show (runExtensions p.plugins uid s4).diagnostics = none
          rw [runExtensions_preserves_diagnostics uid p.plugins s4 hext,
            buildPreSnapshot_diagnostics p uid v u s4 hpre, hadmin]
          simp

/-- C3 (witness): the amended theorem applied to the concrete non-admin
request environment with the well-behaved extension, together with the fact
that this request does produce a snapshot. -/
theorem C3_diagnostics_witness :
    ((getInfo proxyC3w).toOption.isSome = true) ∧
    (∀ s, getInfo proxyC3w = Except.ok s → s.diagnostics = none) := by
  refine ⟨by decide, C3_diagnostics_amended proxyC3w "u1" { guid := "u1", admin := false }
    rfl rfl rfl ?_⟩
  intro pl hmem ep hep s1 s2 uid2 hu
  have hpl : pl = identPlugin := by simpa [proxyC3w] using hmem
  subst hpl
  have hep2 : ep = { typeTag := "", updateMetadata := fun s _ => Except.ok s } := by
    have : some ({ typeTag := "", updateMetadata := fun s _ => Except.ok s }
        : EndpointPluginI) = some ep := hep
    cases this
    rfl
  subst hep2
  cases hu
  rfl

/-- C4 (confirmed): when one registered extension's post-process step fails on
the snapshot it is given, getInfo still returns a snapshot, the extensions
after it still run, and the snapshot entering the failing extension leaves it
unchanged, so the endpoint and relation data computed before it is intact. -/
theorem C4_extension_fault_isolation
    (p : PortalProxy) (ps1 ps2 : List PluginI) (f : PluginI) (ep : EndpointPluginI)
    (e v uid : String) (u : ConnectedUser) (s4 : Info)
    (hplugins : p.plugins = ps1 ++ f :: ps2)
    (hv : p.getVersionsData = Except.ok v)
    (hsess : p.sessionUserId = Except.ok uid)
    (huser : p.getUAAUser uid = Except.ok u)
    (hpre : buildPreSnapshot p uid v u = Except.ok s4)
    (hf : f.getEndpointPlugin = some ep)
    (hfail : ep.updateMetadata (runExtensions ps1 uid s4) uid = Except.error e) :
    getInfo p = Except.ok
      { runExtensions ps2 uid (runExtensions ps1 uid s4) with
          plugins := p.pluginsStatus } ∧
    extStep uid (runExtensions ps1 uid s4) f = runExtensions ps1 uid s4 := by
  have hstep : extStep uid (runExtensions ps1 uid s4) f = runExtensions ps1 uid s4 := by
    simp [extStep, hf, hfail]
  refine ⟨?_, hstep⟩
  simp only [getInfo, hv, hsess, huser, hpre]
  rw [hplugins, runExtensions_append, runExtensions_cons, hstep]

/-- C4 (witness): the theorem applied to the concrete environment whose first
extension always fails and whose second is well-behaved. -/
theorem C4_extension_fault_isolation_witness :
    getInfo proxyC4 = Except.ok
      { runExtensions [identPlugin] "u1" (runExtensions [] "u1" infoC4) with
          plugins := proxyC4.pluginsStatus } ∧
    extStep "u1" (runExtensions [] "u1" infoC4) failPlugin
      = runExtensions [] "u1" infoC4 :=
  C4_extension_fault_isolation proxyC4 [] [identPlugin] failPlugin
    { typeTag := "", updateMetadata := fun _ _ => Except.error "boom" }
    "boom" "v1" "u1" { guid := "u1", admin := false } infoC4
    rfl rfl rfl rfl (by decide) rfl rfl

/-- C6 (confirmed, under the proviso that extension post-processing preserves
the key set of the endpoints map): every plugin implementing the
endpoint-plugin interface with a non-empty type tag has a bucket in the
returned snapshot even with zero endpoints of that type, and no bucket exists
for the empty type tag, since plugins with an empty tag contribute none. -/
theorem C6_type_buckets
    (p : PortalProxy)
    (hext : ∀ pl ∈ p.plugins, ∀ ep, pl.getEndpointPlugin = some ep →
        ∀ s1 s2 uid2, ep.updateMetadata s1 uid2 = Except.ok s2 →
          ∀ k, containsKey s2.endpoints k = containsKey s1.endpoints k) :
    ∀ s, getInfo p = Except.ok s →
      (∀ pl ∈ p.plugins, ∀ ep, pl.getEndpointPlugin = some ep →
          ep.typeTag.length > 0 → containsKey s.endpoints ep.typeTag = true) ∧
      containsKey s.endpoints "" = false := by
  intro s hs
  cases hv : p.getVersionsData with
  | error e => simp only [getInfo, hv] at hs; cases hs
  | ok v =>
      cases hsess : p.sessionUserId with
      | error e => simp only [getInfo, hv, hsess] at hs; cases hs
      | ok uid =>
          cases huser : p.getUAAUser uid with
          | error e => simp only [getInfo, hv, hsess, huser] at hs; cases hs
          | ok u =>
              simp only [getInfo, hv, hsess, huser] at hs
              cases hpre : buildPreSnapshot p uid v u with
              | error err => rw [hpre] at hs; cases hs
              | ok s4 =>
                  rw [hpre] at hs
                  cases hs
                  have hkeys : ∀ k,
                      containsKey (runExtensions p.plugins uid s4).endpoints k
                        = containsKey (initBuckets p.plugins) k := by
                    intro k
                    rw [runExtensions_preserves_keys uid p.plugins s4 hext k]
                    exact buildPreSnapshot_keys p uid v u s4 hpre k
                  constructor
                  · intro pl hmem ep hep hlen
                    show containsKey (runExtensions p.plugins uid s4).endpoints
                      ep.typeTag = true
                    rw [hkeys]
                    exact (containsKey_foldl_bucketStep ep.typeTag p.plugins []).mpr
                      (Or.inr ⟨pl, hmem, ep, hep, rfl, hlen⟩)
                  · show containsKey (runExtensions p.plugins uid s4).endpoints "" = false
                    rw [hkeys]
                    by_contra hcon
                    have htrue : containsKey (initBuckets p.plugins) "" = true := by
                      cases hval : containsKey (initBuckets p.plugins) "" with
                      | true => rfl
                      | false => exact absurd hval hcon
                    rcases (containsKey_foldl_bucketStep "" p.plugins []).mp htrue with
                      h | ⟨pl, hmem, ep, hep, htag, hlen⟩
                    · simp [containsKey, assocGet] at h
                    · rw [htag] at hlen
                      simp at hlen

/-- C6 (witness): the theorem applied to the concrete environment with the
cf-typed plugin, together with the fact that this request does produce a
snapshot. -/
theorem C6_type_buckets_witness :
    ((getInfo proxyC6).toOption.isSome = true) ∧
    (∀ s, getInfo proxyC6 = Except.ok s →
      (∀ pl ∈ proxyC6.plugins, ∀ ep, pl.getEndpointPlugin = some ep →
          ep.typeTag.length > 0 → containsKey s.endpoints ep.typeTag = true) ∧
      containsKey s.endpoints "" = false) := by
  refine ⟨by decide, C6_type_buckets proxyC6 ?_⟩
  intro pl hmem ep hep s1 s2 uid2 hu k
  have hpl : pl = cfPlugin := by simpa [proxyC6] using hmem
  subst hpl
  have hep2 : ep = { typeTag := "cf", updateMetadata := fun s _ => Except.ok s } := by
    have : some ({ typeTag := "cf", updateMetadata := fun s _ => Except.ok s }
        : EndpointPluginI) = some ep := hep
    cases this
    rfl
  subst hep2
  cases hu
  rfl

/-- C7 (confirmed): getInfo completes only when every listed endpoint's type
has an initialized bucket, i.e. equals some plugin's non-empty type tag
(success implies the precondition); and the fault branch is reachable: with a
cf endpoint listed and no plugin owning cf, the write into the absent bucket
is a write into a nil map and the request fails. -/
theorem C7_unbucketed_type_faults :
    (∀ (p : PortalProxy) (s : Info), getInfo p = Except.ok s →
      ∀ cnsi ∈ p.buildCNSIList,
        ∃ pl ∈ p.plugins, ∃ ep, pl.getEndpointPlugin = some ep ∧
          ep.typeTag = cnsi.cnsiType ∧ ep.typeTag.length > 0) ∧
    getInfo proxyC7bad = Except.error "assignment to entry in nil map" := by
  constructor
  · intro p s hs cnsi hmem
    cases hv : p.getVersionsData with
    | error e => simp only [getInfo, hv] at hs; cases hs
    | ok v =>
        cases hsess : p.sessionUserId with
        | error e => simp only [getInfo, hv, hsess] at hs; cases hs
        | ok uid =>
            cases huser : p.getUAAUser uid with
            | error e => simp only [getInfo, hv, hsess, huser] at hs; cases hs
            | ok u =>
                simp only [getInfo, hv, hsess, huser] at hs
                cases hpre : buildPreSnapshot p uid v u with
                | error err => rw [hpre] at hs; cases hs
                | ok s4 =>
                    unfold buildPreSnapshot at hpre
                    cases hi : insertEndpoints p uid
                        (mkInitialInfo p v u).endpoints p.buildCNSIList with
                    | error e2 => rw [hi] at hpre; cases hpre
                    | ok eps =>
                        have hcont :=
                          (insertEndpoints_ok p uid p.buildCNSIList _ eps hi).2
                            cnsi hmem
                        have hcb : containsKey (initBuckets p.plugins)
                            cnsi.cnsiType = true := hcont
                        rcases (containsKey_foldl_bucketStep cnsi.cnsiType
                            p.plugins []).mp hcb with
                          h | ⟨pl, hm, ep, hep, htag, hlen⟩
                        · simp [containsKey, assocGet] at h
                        · exact ⟨pl, hm, ep, hep, htag, hlen⟩
  · decide

/-- C7 (witness): the success direction applied to the concrete environment
where the cf plugin owns the listed endpoint's type, together with the fact
that this request does produce a snapshot. -/
theorem C7_unbucketed_type_faults_witness :
    ((getInfo proxyC7good).toOption.isSome = true) ∧
    (∀ cnsi ∈ proxyC7good.buildCNSIList,
      ∃ pl ∈ proxyC7good.plugins, ∃ ep, pl.getEndpointPlugin = some ep ∧
        ep.typeTag = cnsi.cnsiType ∧ ep.typeTag.length > 0) :=
  ⟨by decide, C7_unbucketed_type_faults.1 proxyC7good _ rfl⟩

/-- C8 (confirmed): when listing the relations fails, the relation-attachment
step leaves the snapshot untouched, and getInfo still returns a snapshot
carrying exactly the per-endpoint details and credential data computed by the
insertion step (the relation failure is only logged, never surfaced). -/
theorem C8_relations_failure_degrades
    (p : PortalProxy) (v uid err : String) (u : ConnectedUser) (eps : EndpointsMap)
    (hv : p.getVersionsData = Except.ok v)
    (hsess : p.sessionUserId = Except.ok uid)
    (huser : p.getUAAUser uid = Except.ok u)
    (herr : p.listRelations = Except.error err)
    (hins : insertEndpoints p uid (initBuckets p.plugins) p.buildCNSIList
      = Except.ok eps) :
    (∀ s, applyRelationsStep p s = s) ∧
    getInfo p = Except.ok
      { runExtensions p.plugins uid
          { mkInitialInfo p v u with endpoints := eps } with
          plugins := p.pluginsStatus } := by
  have hskip : ∀ s : Info, applyRelationsStep p s = s := by
    intro s
    simp [applyRelationsStep, updateEndpointsWithRelations, herr]
  have hins2 : insertEndpoints p uid (mkInitialInfo p v u).endpoints p.buildCNSIList
      = Except.ok eps := hins
  refine ⟨hskip, ?_⟩
  simp only [getInfo, hv, hsess, huser, buildPreSnapshot, hins2, hskip]

/-- C8 (witness): the theorem applied to the concrete environment whose
relations listing fails with a database error. -/
theorem C8_relations_failure_witness :
    (∀ s, applyRelationsStep proxyC8 s = s) ∧
    getInfo proxyC8 = Except.ok
      { runExtensions proxyC8.plugins "u1"
          { mkInitialInfo proxyC8 "v1" { guid := "u1", admin := false } with
              endpoints := epsC8 } with
          plugins := proxyC8.pluginsStatus } :=
  C8_relations_failure_degrades proxyC8 "v1" "u1" "db down"
    { guid := "u1", admin := false } epsC8 rfl rfl rfl rfl (by decide)

theorem foldl_pages_le :
    ∀ (l : List (String × CFEndpointResp)) (acc : Nat),
      acc ≤ l.foldl
        (fun mx p => if mx < p.2.total_pages then p.2.total_pages else mx) acc ∧
      ∀ p ∈ l, p.2.total_pages ≤ l.foldl
        (fun mx p => if mx < p.2.total_pages then p.2.total_pages else mx) acc := by
  intro l
  induction l with
  | nil => intro acc; exact ⟨Nat.le_refl _, by simp⟩
  | cons q rest ih =>
      intro acc
      simp only [List.foldl_cons]
      obtain ⟨h1, h2⟩ := ih (if acc < q.2.total_pages then q.2.total_pages else acc)
      have hstep : acc ≤ (if acc < q.2.total_pages then q.2.total_pages else acc) := by
        by_cases h : acc < q.2.total_pages
        · rw [if_pos h]; exact Nat.le_of_lt h
        · rw [if_neg h]
      have hq : q.2.total_pages
          ≤ (if acc < q.2.total_pages then q.2.total_pages else acc) := by
        by_cases h : acc < q.2.total_pages
        · rw [if_pos h]
        · rw [if_neg h]; exact Nat.le_of_not_lt h
      refine ⟨Nat.le_trans hstep h1, ?_⟩
      intro p hp
      rcases List.mem_cons.mp hp with h | h
      · rw [h]; exact Nat.le_trans hq h1
      · exact h2 p h

theorem foldl_pages_attained :
    ∀ (l : List (String × CFEndpointResp)) (acc : Nat),
      l.foldl (fun mx p => if mx < p.2.total_pages then p.2.total_pages else mx) acc
          = acc ∨
        ∃ p ∈ l,
          l.foldl (fun mx p => if mx < p.2.total_pages then p.2.total_pages else mx) acc
            = p.2.total_pages := by
  intro l
  induction l with
  | nil => intro acc; exact Or.inl rfl
  | cons q rest ih =>
      intro acc
      simp only [List.foldl_cons]
      rcases ih (if acc < q.2.total_pages then q.2.total_pages else acc) with h | ⟨p, hp, he⟩
      · by_cases hlt : acc < q.2.total_pages
        · refine Or.inr ⟨q, List.mem_cons_self _ _, ?_⟩
          rw [h, if_pos hlt]
        · refine Or.inl ?_
          rw [h, if_neg hlt]
      · exact Or.inr ⟨p, List.mem_cons_of_mem _ hp, he⟩

/-- C9 (counterexample): for the empty first-page response getTotalPages is 0,
yet flattenPagination still joins exactly one response (the reused first one),
so it does not issue "exactly that many page requests in total" there. -/
theorem C9_pagination_counterexample :
    ¬ ((flattenPaginationRequests getTotalPages (fun _ => ([] : CFResponse))
          ([] : CFResponse)).length
        = getTotalPages ([] : CFResponse)) := by decide

/-- C9 (amended): getTotalPages returns the maximum total_pages over all
endpoints of the response (0 for an empty one), and flattenPagination reuses
the already-made first response as page 1 and fetches pages 2 through that
maximum; hence it joins exactly that many responses whenever the maximum is
at least 1, and when the maximum is at most 1 (including the empty response,
whose maximum is 0) no additional request is made and the single first
response is joined alone. -/
theorem C9_pagination_amended (res : CFResponse) (fetch : Nat → CFResponse) :
    (∀ p ∈ res, p.2.total_pages ≤ getTotalPages res) ∧
    (getTotalPages res = 0 ∨ ∃ p ∈ res, getTotalPages res = p.2.total_pages) ∧
    (1 ≤ getTotalPages res →
      (flattenPaginationRequests getTotalPages fetch res).length = getTotalPages res) ∧
    (getTotalPages res ≤ 1 →
      flattenPaginationRequests getTotalPages fetch res = [res]) := by
  refine ⟨(foldl_pages_le res 0).2, foldl_pages_attained res 0, ?_, ?_⟩
  · intro h
    simp only [flattenPaginationRequests, List.length_cons, pageRange,
      List.length_map, List.length_range']
    omega
  · intro h
    simp only [flattenPaginationRequests, pageRange]
    have h0 : getTotalPages res + 1 - 2 = 0 := by omega
    rw [h0]
    rfl

/-- C9 (witness): the request-count equation of the amended theorem applied to
the concrete response whose endpoint page counts are 3 and 2 (maximum 3). -/
theorem C9_pagination_witness :
    (flattenPaginationRequests getTotalPages (fun _ => ([] : CFResponse)) resC9).length
      = getTotalPages resC9 :=
  (C9_pagination_amended resC9 (fun _ => [])).2.2.1 (by decide)

theorem braceIndex_eq_zero (s : String) :
    braceIndex s = 0 ↔ s.toList.head? = some '{' := by
  unfold braceIndex
  cases h : s.toList with
  | nil => simp
  | cons c cs =>
      rw [List.findIdx?_cons]
      by_cases hc : c = '{'
      · simp [hc]
      · simp only [hc, decide_False, Bool.false_eq_true, if_false, List.head?_cons]
        cases hfi : List.findIdx? (fun c => c = '{') cs with
        | none => simp [hfi, hc]
        | some i =>
            simp [hfi, hc]
            omega

/-- C10 (confirmed): marshalEndpointMetadata JSON-decodes the metadata string
exactly when its byte length exceeds 2 and its first character is a brace
(strings.Index with "{" returning 0 is first-character test), leaving the
decode result as given by the decoder — a nil map when decoding fails, since
the json.Unmarshal error is discarded — and passes the string through
unchanged in every other case. -/
theorem C10_marshal_endpoint_metadata
    (decode : String → Option (List (String × String))) (s : String) :
    marshalEndpointMetadata decode s =
      if s.utf8ByteSize > 2 ∧ s.toList.head? = some '{' then MetaValue.obj (decode s)
      else MetaValue.str s := by
  unfold marshalEndpointMetadata
  by_cases h : s.utf8ByteSize > 2 ∧ braceIndex s = 0
  · rw [if_pos h, if_pos ⟨h.1, (braceIndex_eq_zero s).mp h.2⟩]
  · rw [if_neg h, if_neg (fun hc => h ⟨hc.1, (braceIndex_eq_zero s).mpr hc.2⟩)]
